import Mathlib

/-!
Verification development for the Visualizer repository: a browser client
(frontend/src/App.js together with the Graph component) talks to a backend over
a WebSocket, merging extracted entities/relations into a shared graph.

The client code is present under frontend/src; its handlers (handleSubmit,
handleClear, ws.onmessage) are embedded directly below.  The backend
(backend/main.py) is not part of the available sources, so the server-side
merge function, broadcaster and frame handling are modelled from the
specification, each marked `Modelled from the spec:` in its doc comment.
-/

set_option autoImplicit false

/-! ## Client-side element model (Cytoscape elements, one id space) -/

/-- Data carried by a graph node element: `{"data":{"id","label","type"}}`. -/
structure NodeData where
  id : String
  label : String
  type : String
deriving DecidableEq, Repr

/-- Data carried by a graph edge element: `{"data":{"id","source","target","label"}}`. -/
structure EdgeData where
  id : String
  source : String
  target : String
  label : String
deriving DecidableEq, Repr

/-- A Cytoscape element is either a node or an edge; both live in one id space,
which is what `cy.getElementById` searches. -/
inductive Element where
  | node (d : NodeData)
  | edge (d : EdgeData)
deriving DecidableEq, Repr

/-- The id of an element, as used by `getElementById`. -/
def Element.elId : Element → String
  | Element.node d => d.id
  | Element.edge d => d.id

/-- The client graph state: the collection of elements currently added to the
Cytoscape instance. -/
abbrev GraphState := List Element

/-- `getElementById(i).length` is non-zero iff some element with id `i` exists. -/
def hasId (g : GraphState) (i : String) : Bool :=
  g.any (fun el => el.elId == i)

/-- One step of the client merge loop in `ws.onmessage`:
`if (!cy.getElementById(el.data.id).length) cy.add(el)`. -/
def addElement (g : GraphState) (el : Element) : GraphState :=
  if hasId g el.elId then g else g ++ [el]

/-- The `forEach` merge loop over a list of elements. -/
def applyBatch (g : GraphState) (els : List Element) : GraphState :=
  els.foldl addElement g

/-- Client processing of the element payload of an `initial`/`update` message:
first the node loop, then the edge loop (App.js lines 291-303). -/
def applyUpdate (g : GraphState) (ns : List NodeData) (es : List EdgeData) : GraphState :=
  applyBatch (applyBatch g (ns.map Element.node)) (es.map Element.edge)

/-- No two elements of the graph share an id. -/
def uniqueIds (g : GraphState) : Prop :=
  (g.map Element.elId).Nodup

instance (g : GraphState) : Decidable (uniqueIds g) :=
  inferInstanceAs (Decidable ((g.map Element.elId).Nodup))

/-! ### Basic lemmas about the client merge -/

theorem hasId_true_iff (g : GraphState) (i : String) :
    hasId g i = true ↔ i ∈ g.map Element.elId := by
  simp [hasId, List.any_eq_true, beq_iff_eq, List.mem_map]

theorem hasId_append (g g' : GraphState) (i : String) :
    hasId (g ++ g') i = (hasId g i || hasId g' i) := by
  simp [hasId, List.any_append]

theorem hasId_addElement_mono (g : GraphState) (el : Element) (i : String)
    (h : hasId g i = true) : hasId (addElement g el) i = true := by
  unfold addElement
  split
  · exact h
  · simp [hasId_append, h]

theorem hasId_addElement_self (g : GraphState) (el : Element) :
    hasId (addElement g el) el.elId = true := by
  unfold addElement
  split
  · assumption
  · simp [hasId_append, hasId]

theorem hasId_applyBatch_mono (els : List Element) (g : GraphState) (i : String)
    (h : hasId g i = true) : hasId (applyBatch g els) i = true := by
  induction els generalizing g with
  | nil => exact h
  | cons el rest ih =>
      simp only [applyBatch, List.foldl_cons] at *
      exact ih (addElement g el) (hasId_addElement_mono g el i h)

theorem hasId_applyBatch_of_mem (els : List Element) (g : GraphState) (el : Element)
    (h : el ∈ els) : hasId (applyBatch g els) el.elId = true := by
  induction els generalizing g with
  | nil => cases h
  | cons e rest ih =>
      simp only [applyBatch, List.foldl_cons]
      rcases List.mem_cons.mp h with h1 | h2
      · subst h1
        exact hasId_applyBatch_mono rest (addElement g el) el.elId
          (hasId_addElement_self g el)
      · exact ih (addElement g e) h2

theorem applyBatch_eq_of_present (els : List Element) (g : GraphState)
    (h : ∀ el ∈ els, hasId g el.elId = true) : applyBatch g els = g := by
  induction els with
  | nil => rfl
  | cons e rest ih =>
      simp only [applyBatch, List.foldl_cons]
      have he : addElement g e = g := by
        unfold addElement
        rw [if_pos (h e (List.mem_cons_self e rest))]
      rw [he]
      exact ih (fun el hel => h el (List.mem_cons_of_mem e hel))

theorem applyBatch_idem (g : GraphState) (els : List Element) :
    applyBatch (applyBatch g els) els = applyBatch g els :=
  applyBatch_eq_of_present els (applyBatch g els)
    (fun el hel => hasId_applyBatch_of_mem els g el hel)

theorem applyUpdate_idem (g : GraphState) (ns : List NodeData) (es : List EdgeData) :
    applyUpdate (applyUpdate g ns es) ns es = applyUpdate g ns es := by
  unfold applyUpdate
  have hn : applyBatch (applyBatch (applyBatch g (ns.map Element.node)) (es.map Element.edge))
      (ns.map Element.node)
      = applyBatch (applyBatch g (ns.map Element.node)) (es.map Element.edge) := by
    apply applyBatch_eq_of_present
    intro el hel
    exact hasId_applyBatch_mono _ _ _ (hasId_applyBatch_of_mem _ g el hel)
  rw [hn]
  apply applyBatch_eq_of_present
  intro el hel
  exact hasId_applyBatch_of_mem _ _ el hel

theorem uniqueIds_addElement (g : GraphState) (el : Element)
    (h : uniqueIds g) : uniqueIds (addElement g el) := by
  unfold addElement
  split
  · exact h
  · rename_i hfalse
    have hnotmem : el.elId ∉ g.map Element.elId := by
      intro hm
      rw [← hasId_true_iff] at hm
      simp [hm] at hfalse
    simpa [uniqueIds, List.nodup_append] using And.intro h hnotmem

theorem uniqueIds_applyBatch (els : List Element) (g : GraphState)
    (h : uniqueIds g) : uniqueIds (applyBatch g els) := by
  induction els generalizing g with
  | nil => exact h
  | cons e rest ih =>
      simp only [applyBatch, List.foldl_cons]
      exact ih (addElement g e) (uniqueIds_addElement g e h)

/-! ## Client message-level model and reachable client states -/

/-- An already-decoded server-to-client graph message, at the level of its
payload: an `initial`/`update` delta, or a `clear`. -/
inductive ClientInMsg where
  | update (ns : List NodeData) (es : List EdgeData)
  | clear
deriving DecidableEq, Repr

/-- The effect of one decoded message on the client graph: `initial`/`update`
runs the merge loops, `clear` runs `cy.elements().remove()`. -/
def clientApply (g : GraphState) : ClientInMsg → GraphState
  | ClientInMsg.update ns es => applyUpdate g ns es
  | ClientInMsg.clear => []

/-- The client graph reached after processing a sequence of messages, starting
from the empty Cytoscape instance. -/
def clientRun (msgs : List ClientInMsg) : GraphState :=
  msgs.foldl clientApply []

theorem uniqueIds_clientApply (g : GraphState) (m : ClientInMsg)
    (h : uniqueIds g) : uniqueIds (clientApply g m) := by
  cases m with
  | update ns es =>
      exact uniqueIds_applyBatch _ _ (uniqueIds_applyBatch _ _ h)
  | clear => simp [clientApply, uniqueIds]

theorem uniqueIds_clientRun_aux (msgs : List ClientInMsg) (g : GraphState)
    (h : uniqueIds g) : uniqueIds (msgs.foldl clientApply g) := by
  induction msgs generalizing g with
  | nil => exact h
  | cons m rest ih =>
      simp only [List.foldl_cons]
      exact ih (clientApply g m) (uniqueIds_clientApply g m h)

/-- C1: merging is idempotent — applying the same batch of extracted nodes and
edges twice yields the same graph as applying it once, and every graph
reachable from the empty client graph has at most one element (node or edge)
per distinct id. -/
theorem client_merge_idempotent :
    (∀ (g : GraphState) (ns : List NodeData) (es : List EdgeData),
        applyUpdate (applyUpdate g ns es) ns es = applyUpdate g ns es) ∧
    (∀ msgs : List ClientInMsg, uniqueIds (clientRun msgs)) :=
  ⟨fun g ns es => applyUpdate_idem g ns es,
   fun msgs => uniqueIds_clientRun_aux msgs [] (by simp [uniqueIds])⟩

/-! ## Server-side data model (modelled from the spec) -/

/-- An extracted entity `{id, label, type}`; the id is derived from the
normalized label text by the (opaque) extraction collaborator. -/
structure Entity where
  id : String
  label : String
  type : String
deriving DecidableEq, Repr

/-- An extracted relation `{id, source_id, target_id, label}`; the id is
derived from the ordered endpoint pair plus the label. -/
structure Relation where
  id : String
  source : String
  target : String
  label : String
deriving DecidableEq, Repr

/-- Modelled from the spec: the backend's Graph Merge Function
(backend/main.py is not among the available sources).  Pure function of
(existing known node ids, existing known edge ids, extracted entities,
extracted relations).  An entity is new iff its derived id is not already
known; a relation is new iff its derived id is not known and both endpoint
ids lie in the union of previously-known and newly-added entity ids. -/
def mergeGraph (knownNodes knownEdges : List String)
    (ents : List Entity) (rels : List Relation) : List Entity × List Relation :=
  let newEnts := ents.filter (fun e => !(knownNodes.contains e.id))
  let nodeIds := knownNodes ++ newEnts.map (fun e => e.id)
  let newRels := rels.filter (fun r =>
    !(knownEdges.contains r.id) && nodeIds.contains r.source && nodeIds.contains r.target)
  (newEnts, newRels)

/-- The shared server-side graph: the entities and relations accumulated so
far (process-wide, reset only by `clear`). -/
structure ServerGraph where
  nodes : List Entity
  edges : List Relation
deriving DecidableEq, Repr

/-- The known node-id set of the shared graph. -/
def ServerGraph.nodeIds (g : ServerGraph) : List String :=
  g.nodes.map (fun e => e.id)

/-- The known edge-id set of the shared graph. -/
def ServerGraph.edgeIds (g : ServerGraph) : List String :=
  g.edges.map (fun r => r.id)

/-- The empty shared graph (server start-up / after `clear`). -/
def ServerGraph.empty : ServerGraph := ⟨[], []⟩

/-- Modelled from the spec: server handling of a `text` message — the
extraction result is merged against the current known-id sets and the delta
is appended to the shared graph.  Returns the new graph and the delta. -/
def applyText (g : ServerGraph) (ents : List Entity) (rels : List Relation) :
    ServerGraph × List Entity × List Relation :=
  let d := mergeGraph g.nodeIds g.edgeIds ents rels
  (⟨g.nodes ++ d.1, g.edges ++ d.2⟩, d)

/-- A command reaching the shared graph: a text submission (already run
through the opaque extraction collaborator) or a clear. -/
inductive ServerCmd where
  | text (ents : List Entity) (rels : List Relation)
  | clear
deriving DecidableEq, Repr

/-- Modelled from the spec: one step of the shared graph state machine. -/
def serverStep (g : ServerGraph) : ServerCmd → ServerGraph
  | ServerCmd.text ents rels => (applyText g ents rels).1
  | ServerCmd.clear => ServerGraph.empty

/-- The shared graph reached after a sequence of commands from start-up. -/
def serverRun (cmds : List ServerCmd) : ServerGraph :=
  cmds.foldl serverStep ServerGraph.empty

/-- Well-formedness of the shared graph: every relation's endpoints are
present in the entity id set. -/
def ServerGraph.wf (g : ServerGraph) : Bool :=
  g.edges.all (fun r => g.nodeIds.contains r.source && g.nodeIds.contains r.target)

/-- Well-formedness of an emitted delta relative to the previously-known node
ids: every delta relation's endpoints lie in the union of previously-known
and newly-emitted node ids. -/
def deltaEdgesWF (knownNodes : List String) (d : List Entity × List Relation) : Bool :=
  let ids := knownNodes ++ d.1.map (fun e => e.id)
  d.2.all (fun r => ids.contains r.source && ids.contains r.target)

/-- Modelled from the spec: the full-graph snapshot serialized into the
`initial` message sent to a newly-accepted connection. -/
def initialData (g : ServerGraph) : List Entity × List Relation :=
  (g.nodes, g.edges)

/-! ### Merge function characterization and well-formedness -/

theorem wf_iff (g : ServerGraph) : g.wf = true ↔
    ∀ r ∈ g.edges, r.source ∈ g.nodeIds ∧ r.target ∈ g.nodeIds := by
  simp [ServerGraph.wf, List.all_eq_true]

theorem mem_mergeGraph_rels (kN kE : List String) (ents : List Entity)
    (rels : List Relation) (r : Relation)
    (h : r ∈ (mergeGraph kN kE ents rels).2) :
    r.source ∈ kN ++ ((mergeGraph kN kE ents rels).1.map (fun x => x.id)) ∧
    r.target ∈ kN ++ ((mergeGraph kN kE ents rels).1.map (fun x => x.id)) := by
  simp [mergeGraph, List.mem_filter] at h ⊢
  tauto

theorem nodeIds_applyText (g : ServerGraph) (ents : List Entity) (rels : List Relation) :
    ((applyText g ents rels).1).nodeIds
      = g.nodeIds ++ ((mergeGraph g.nodeIds g.edgeIds ents rels).1.map (fun x => x.id)) := by
  simp [applyText, ServerGraph.nodeIds]

theorem wf_applyText (g : ServerGraph) (ents : List Entity) (rels : List Relation)
    (h : g.wf = true) : ((applyText g ents rels).1).wf = true := by
  rw [wf_iff] at h ⊢
  intro r hr
  rw [nodeIds_applyText]
  have hedges : ((applyText g ents rels).1).edges
      = g.edges ++ (mergeGraph g.nodeIds g.edgeIds ents rels).2 := rfl
  rw [hedges] at hr
  rcases List.mem_append.mp hr with h1 | h2
  · obtain ⟨hs, ht⟩ := h r h1
    exact ⟨List.mem_append_left _ hs, List.mem_append_left _ ht⟩
  · exact mem_mergeGraph_rels _ _ _ _ r h2

theorem wf_serverStep (g : ServerGraph) (c : ServerCmd)
    (h : g.wf = true) : (serverStep g c).wf = true := by
  cases c with
  | text ents rels => exact wf_applyText g ents rels h
  | clear => rfl

theorem wf_serverRun_aux (cmds : List ServerCmd) (g : ServerGraph)
    (h : g.wf = true) : (cmds.foldl serverStep g).wf = true := by
  induction cmds generalizing g with
  | nil => exact h
  | cons c rest ih =>
      simp only [List.foldl_cons]
      exact ih (serverStep g c) (wf_serverStep g c h)

/-- C2: merge dedup policy — an entity is in the delta iff it was extracted and
its derived id is not already among the known node ids; a relation is in the
delta iff it was extracted, its derived id is not among the known edge ids,
and both endpoints lie in the union of previously-known and newly-added
entity ids. -/
theorem merge_delta_characterization
    (knownNodes knownEdges : List String) (ents : List Entity) (rels : List Relation)
    (e : Entity) (r : Relation) :
    (e ∈ (mergeGraph knownNodes knownEdges ents rels).1 ↔
      e ∈ ents ∧ knownNodes.contains e.id = false) ∧
    (r ∈ (mergeGraph knownNodes knownEdges ents rels).2 ↔
      r ∈ rels ∧ knownEdges.contains r.id = false ∧
        (knownNodes ++ (mergeGraph knownNodes knownEdges ents rels).1.map
          (fun x => x.id)).contains r.source = true ∧
        (knownNodes ++ (mergeGraph knownNodes knownEdges ents rels).1.map
          (fun x => x.id)).contains r.target = true) := by
  constructor
  · simp [mergeGraph, List.mem_filter]
  · simp [mergeGraph, List.mem_filter]
    tauto

/-- C3: well-formedness — every shared graph state reachable from start-up
satisfies the invariant that each relation's endpoints exist in the entity
set, and every delta the merge function emits only contains relations whose
endpoints lie in the union of previously-known and newly-emitted node ids. -/
theorem graph_wellformed_invariant :
    (∀ cmds : List ServerCmd, (serverRun cmds).wf = true) ∧
    (∀ (kN kE : List String) (ents : List Entity) (rels : List Relation),
      deltaEdgesWF kN (mergeGraph kN kE ents rels) = true) := by
  constructor
  · intro cmds
    exact wf_serverRun_aux cmds ServerGraph.empty rfl
  · intro kN kE ents rels
    simp only [deltaEdgesWF, List.all_eq_true]
    intro r hr
    have h := mem_mergeGraph_rels kN kE ents rels r hr
    simp only [Bool.and_eq_true]
    constructor
    · simpa using h.1
    · simpa using h.2

/-- C4: a `clear` command empties the shared graph, so the `initial` snapshot
taken before any further text merge contains empty nodes and edges; on the
client, a `clear` message removes all elements. -/
theorem clear_empties_graph :
    (∀ g : ServerGraph, serverStep g ServerCmd.clear = ServerGraph.empty ∧
      initialData (serverStep g ServerCmd.clear) = ([], [])) ∧
    (∀ cg : GraphState, clientApply cg ClientInMsg.clear = []) :=
  ⟨fun _ => ⟨rfl, rfl⟩, fun _ => rfl⟩

/-! ## JSON values, parsing and serialization

The WebSocket frames are JSON text.  `Json` models parsed values; `parseJson`
models `JSON.parse` (returning `none` where `JSON.parse` throws a
SyntaxError; numbers are modelled as integers, which is enough for every
message shape of this protocol); `jsonStringify` models `JSON.stringify`
with insertion-ordered object keys. -/

/-- A parsed JSON value. -/
inductive Json where
  | null
  | bool (b : Bool)
  | num (n : Int)
  | str (s : String)
  | arr (items : List Json)
  | obj (fields : List (String × Json))

/-- Property lookup on a parsed value: `none` models JavaScript `undefined`
(missing key, or property access on a non-object). -/
def lookupField : List (String × Json) → String → Option Json
  | [], _ => none
  | (k, v) :: rest, key => if k = key then some v else lookupField rest key

/-- `j.k` property access as the message handler performs it. -/
def getField : Json → String → Option Json
  | Json.obj fs, key => lookupField fs key
  | _, _ => none

/-- The `type` property of a message, when it is a string. -/
def getType (j : Json) : Option String :=
  match getField j "type" with
  | some (Json.str s) => some s
  | _ => none

/-- Skip JSON whitespace. -/
def skipWs : List Char → List Char
  | [] => []
  | c :: cs => if c = ' ' ∨ c = '\n' ∨ c = '\t' ∨ c = '\r' then skipWs cs else c :: cs

/-- Decode a one-character JSON string escape. -/
def escDecode (c : Char) : Option Char :=
  if c = '"' then some '"'
  else if c = '\\' then some '\\'
  else if c = '/' then some '/'
  else if c = 'n' then some '\n'
  else if c = 't' then some '\t'
  else if c = 'r' then some '\r'
  else if c = 'b' then some (Char.ofNat 8)
  else if c = 'f' then some (Char.ofNat 12)
  else none

/-- Parse the remainder of a JSON string literal (after the opening quote). -/
def parseStringRest : List Char → Option (String × List Char)
  | [] => none
  | '"' :: rest => some ("", rest)
  | '\\' :: c :: rest =>
    match escDecode c with
    | none => none
    | some d => (parseStringRest rest).map (fun p => (String.singleton d ++ p.1, p.2))
  | c :: rest => (parseStringRest rest).map (fun p => (String.singleton c ++ p.1, p.2))

/-- Accumulate decimal digits. -/
def digitsToNat (acc : Nat) : List Char → Nat × List Char
  | [] => (acc, [])
  | c :: cs => if c.isDigit then digitsToNat (acc * 10 + (c.toNat - 48)) cs else (acc, c :: cs)

/-- Parse an integer JSON number. -/
def parseNumber : List Char → Option (Json × List Char)
  | [] => none
  | '-' :: c :: cs =>
    if c.isDigit then
      let p := digitsToNat (c.toNat - 48) cs
      some (Json.num (-(Int.ofNat p.1)), p.2)
    else none
  | c :: cs =>
    if c.isDigit then
      let p := digitsToNat (c.toNat - 48) cs
      some (Json.num (Int.ofNat p.1), p.2)
    else none

mutual

/-- Fuel-indexed recursive-descent parse of one JSON value. -/
def parseValue : Nat → List Char → Option (Json × List Char)
  | 0, _ => none
  | Nat.succ fuel, cs =>
    match skipWs cs with
    | 'n' :: 'u' :: 'l' :: 'l' :: rest => some (Json.null, rest)
    | 't' :: 'r' :: 'u' :: 'e' :: rest => some (Json.bool true, rest)
    | 'f' :: 'a' :: 'l' :: 's' :: 'e' :: rest => some (Json.bool false, rest)
    | '"' :: rest => (parseStringRest rest).map (fun p => (Json.str p.1, p.2))
    | '[' :: rest =>
      (match skipWs rest with
       | ']' :: rest2 => some (Json.arr [], rest2)
       | cs2 => (parseItems fuel cs2).map (fun p => (Json.arr p.1, p.2)))
    | '\x7b' :: rest =>
      (match skipWs rest with
       | '\x7d' :: rest2 => some (Json.obj [], rest2)
       | cs2 => (parseFields fuel cs2).map (fun p => (Json.obj p.1, p.2)))
    | cs2 => parseNumber cs2

/-- Parse the items of a non-empty JSON array, up to the closing bracket. -/
def parseItems : Nat → List Char → Option (List Json × List Char)
  | 0, _ => none
  | Nat.succ fuel, cs =>
    match parseValue fuel cs with
    | none => none
    | some (v, rest) =>
      match skipWs rest with
      | ',' :: rest2 => (parseItems fuel rest2).map (fun p => (v :: p.1, p.2))
      | ']' :: rest2 => some ([v], rest2)
      | _ => none

/-- Parse the fields of a non-empty JSON object, up to the closing brace. -/
def parseFields : Nat → List Char → Option (List (String × Json) × List Char)
  | 0, _ => none
  | Nat.succ fuel, cs =>
    match skipWs cs with
    | '"' :: rest =>
      (match parseStringRest rest with
       | none => none
       | some (k, rest2) =>
         match skipWs rest2 with
         | ':' :: rest3 =>
           (match parseValue fuel rest3 with
            | none => none
            | some (v, rest4) =>
              match skipWs rest4 with
              | ',' :: rest5 => (parseFields fuel rest5).map (fun p => ((k, v) :: p.1, p.2))
              | '\x7d' :: rest5 => some ([(k, v)], rest5)
              | _ => none)
         | _ => none)
    | _ => none

end

/-- `JSON.parse`: `none` where the JavaScript builtin would throw. -/
def parseJson (s : String) : Option Json :=
  match parseValue (3 * s.length + 3) s.toList with
  | some (v, rest) => if skipWs rest = [] then some v else none
  | none => none

/-- Escape one character for a JSON string literal. -/
def escapeChar (c : Char) : String :=
  if c = '"' then "\\\""
  else if c = '\\' then "\\\\"
  else if c = '\n' then "\\n"
  else if c = '\r' then "\\r"
  else if c = '\t' then "\\t"
  else String.singleton c

/-- Escape a string for a JSON string literal. -/
def escapeString (s : String) : String :=
  s.foldl (fun acc c => acc ++ escapeChar c) ""

mutual

/-- `JSON.stringify` on a parsed value (insertion-ordered keys, no spaces). -/
def jsonStringify : Json → String
  | Json.null => "null"
  | Json.bool true => "true"
  | Json.bool false => "false"
  | Json.num n => toString n
  | Json.str s => "\"" ++ escapeString s ++ "\""
  | Json.arr items => "[" ++ stringifyItems items ++ "]"
  | Json.obj fields => "\x7b" ++ stringifyFields fields ++ "\x7d"

/-- Serialize array items, comma-separated. -/
def stringifyItems : List Json → String
  | [] => ""
  | [v] => jsonStringify v
  | v :: rest => jsonStringify v ++ "," ++ stringifyItems rest

/-- Serialize object fields, comma-separated. -/
def stringifyFields : List (String × Json) → String
  | [] => ""
  | [(k, v)] => "\"" ++ escapeString k ++ "\":" ++ jsonStringify v
  | (k, v) :: rest => "\"" ++ escapeString k ++ "\":" ++ jsonStringify v ++ "," ++ stringifyFields rest

end

/-! ## Client handlers (App.js) -/

/-- JavaScript `String.prototype.trim`: strip leading and trailing whitespace
(the builtin is external to the repository; modelled on the characters of
the string). -/
def jsTrim (s : String) : String :=
  String.mk ((s.toList.dropWhile Char.isWhitespace).reverse.dropWhile Char.isWhitespace).reverse

/-- The piece of React state `handleSubmit`/`handleClear` read: the current
textarea contents and whether the WebSocket is open. -/
structure AppState where
  inputText : String
  wsOpen : Bool
deriving DecidableEq, Repr

/-- The `{"type":"text","text":s}` client frame. -/
def textMsg (s : String) : Json :=
  Json.obj [("type", Json.str "text"), ("text", Json.str s)]

/-- The `{"type":"clear"}` client frame. -/
def clearMsg : Json :=
  Json.obj [("type", Json.str "clear")]

/-- `handleSubmit` (App.js lines 11-24): if the trimmed input is non-empty and
the socket is open, send the text frame with the raw input and clear the
textarea; otherwise do nothing.  Returns the sent frame, if any, and the new
component state. -/
def handleSubmit (st : AppState) : Option Json × AppState :=
  if jsTrim st.inputText ≠ "" ∧ st.wsOpen = true then
    (some (textMsg st.inputText), AppState.mk "" st.wsOpen)
  else (none, st)

/-- `handleClear` (App.js lines 26-32): if the socket is open, send the clear
frame; the textarea is left as it is. -/
def handleClear (st : AppState) : Option Json × AppState :=
  if st.wsOpen = true then (some clearMsg, st) else (none, st)

/-- The two UI actions that can cause the client to send a frame. -/
inductive UIEvent where
  | submit
  | clear
deriving DecidableEq, Repr

/-- Every frame the client can emit comes from one of the two handlers. -/
def clientEmit (st : AppState) : UIEvent → Option Json
  | UIEvent.submit => (handleSubmit st).1
  | UIEvent.clear => (handleClear st).1

/-! ## Client message handler (`ws.onmessage`, App.js lines 284-329) -/

/-- String-valued property lookup. -/
def getStr (j : Json) (key : String) : Option String :=
  match getField j key with
  | some (Json.str s) => some s
  | _ => none

/-- Read a node element `{"data":{"id","label","type"}}` out of its JSON. -/
def toNode (j : Json) : Option NodeData :=
  match getField j "data" with
  | some d =>
    match getStr d "id", getStr d "label", getStr d "type" with
    | some i, some l, some t => some ⟨i, l, t⟩
    | _, _, _ => none
  | none => none

/-- Read an edge element `{"data":{"id","source","target","label"}}`. -/
def toEdge (j : Json) : Option EdgeData :=
  match getField j "data" with
  | some d =>
    match getStr d "id", getStr d "source", getStr d "target", getStr d "label" with
    | some i, some s, some t, some l => some ⟨i, s, t, l⟩
    | _, _, _, _ => none
  | none => none

/-- The node `forEach` loop: add each well-formed node not already present;
a malformed element makes the handler throw, keeping the additions made so
far.  The second component is the pending JavaScript exception, if any. -/
def addNodesJson : List Json → GraphState → GraphState × Option String
  | [], g => (g, none)
  | j :: rest, g =>
    match toNode j with
    | none => (g, some "TypeError")
    | some n => addNodesJson rest (addElement g (Element.node n))

/-- The edge `forEach` loop, analogous to the node loop. -/
def addEdgesJson : List Json → GraphState → GraphState × Option String
  | [], g => (g, none)
  | j :: rest, g =>
    match toEdge j with
    | none => (g, some "TypeError")
    | some e => addEdgesJson rest (addElement g (Element.edge e))

/-- `const { nodes, edges } = message.data` followed by the two merge loops:
destructuring a missing or non-object `data`, or iterating a missing array,
throws before any element is added. -/
def handleGraphData (d : Option Json) (g : GraphState) : GraphState × Option String :=
  match d with
  | some (Json.obj fs) =>
    (match getField (Json.obj fs) "nodes" with
     | some (Json.arr ns) =>
       (match addNodesJson ns g with
        | (g1, some err) => (g1, some err)
        | (g1, none) =>
          match getField (Json.obj fs) "edges" with
          | some (Json.arr es) => addEdgesJson es g1
          | _ => (g1, some "TypeError"))
     | _ => (g, some "TypeError"))
  | _ => (g, some "TypeError")

/-- Whether a parsed value is JSON `null` (on which `message.type` throws). -/
def Json.isNull : Json → Bool
  | Json.null => true
  | _ => false

/-- The body of `ws.onmessage` after `JSON.parse`: dispatch on `message.type`;
`initial` and `update` merge the payload, `clear` removes all elements, and
any other message leaves the graph alone.  Returns the resulting element
collection and the pending exception, if any. -/
def clientStep (j : Json) (g : GraphState) : GraphState × Option String :=
  if j.isNull then (g, some "TypeError")
  else
    match getType j with
    | some t =>
      if t = "initial" ∨ t = "update" then handleGraphData (getField j "data") g
      else if t = "clear" then ([], none)
      else (g, none)
    | none => (g, none)

/-- The whole `ws.onmessage` handler: `JSON.parse(event.data)` with no error
guard — a frame that is not valid JSON makes the handler throw a
SyntaxError — then the dispatch above. -/
def clientOnMessage (frame : String) (g : GraphState) : GraphState × Option String :=
  match parseJson frame with
  | none => (g, some "SyntaxError")
  | some j => clientStep j g

/-! ## Server frame handling and broadcast (modelled from the spec) -/

/-- The two client-to-server commands of the protocol. -/
inductive ClientCmd where
  | text (s : String)
  | clear
deriving DecidableEq, Repr

/-- Modelled from the spec: how the backend (backend/main.py, not among the
available sources) reads a parsed client frame — `{"type":"text","text":s}`
or `{"type":"clear"}`; anything else is unrecognized. -/
def classifyJson (j : Json) : Option ClientCmd :=
  match getType j with
  | some t =>
    if t = "text" then
      match getField j "text" with
      | some (Json.str s) => some (ClientCmd.text s)
      | _ => none
    else if t = "clear" then some ClientCmd.clear
    else none
  | none => none

/-- Modelled from the spec: parse a raw frame and classify it — `none` when
the frame is not valid JSON or not one of the two client-to-server shapes. -/
def classifyFrame (frame : String) : Option ClientCmd :=
  match parseJson frame with
  | none => none
  | some j => classifyJson j

/-- A frame is malformed when it is not valid JSON or is not one of the two
specified client-to-server shapes. -/
def malformedFrame (frame : String) : Bool :=
  (classifyFrame frame).isNone

/-- What the server did with a frame. -/
inductive ServerAction where
  | ignored
  | handledText (s : String)
  | handledClear
deriving DecidableEq, Repr

/-- Modelled from the spec: execution of a recognized command against the
shared graph — a `text` whose trimmed form is empty is a no-op, otherwise the
extraction collaborator runs and the result is merged; `clear` empties the
graph. -/
def serverExec (g : ServerGraph) (extract : String → List Entity × List Relation) :
    ClientCmd → ServerGraph × ServerAction
  | ClientCmd.text s =>
    if jsTrim s = "" then (g, ServerAction.ignored)
    else ((applyText g (extract s).1 (extract s).2).1, ServerAction.handledText s)
  | ClientCmd.clear => (ServerGraph.empty, ServerAction.handledClear)

/-- Modelled from the spec: server handling of one raw client frame.  The
function is total — the server never crashes — and a malformed frame is
ignored, leaving the shared graph unchanged. -/
def serverOnFrame (g : ServerGraph) (extract : String → List Entity × List Relation)
    (frame : String) : ServerGraph × ServerAction :=
  match classifyFrame frame with
  | none => (g, ServerAction.ignored)
  | some cmd => serverExec g extract cmd

/-- Modelled from the spec: delivery of the client's optional outgoing frame
to the server; sending nothing leaves the shared graph as it is. -/
def serverDeliver (g : ServerGraph) (extract : String → List Entity × List Relation) :
    Option Json → ServerGraph
  | none => g
  | some j =>
    match classifyJson j with
    | none => g
    | some cmd => (serverExec g extract cmd).1

/-- The node element JSON sent to clients: `{"data":{"id","label","type"}}`. -/
def nodeJson (e : Entity) : Json :=
  Json.obj [("data", Json.obj
    [("id", Json.str e.id), ("label", Json.str e.label), ("type", Json.str e.type)])]

/-- The edge element JSON sent to clients:
`{"data":{"id","source","target","label"}}`. -/
def edgeJson (r : Relation) : Json :=
  Json.obj [("data", Json.obj
    [("id", Json.str r.id), ("source", Json.str r.source),
     ("target", Json.str r.target), ("label", Json.str r.label)])]

/-- The `{"type":"update","data":{"nodes":[...],"edges":[...]}}` message. -/
def updateMsg (ne : List Entity) (nr : List Relation) : Json :=
  Json.obj [("type", Json.str "update"),
    ("data", Json.obj [("nodes", Json.arr (ne.map nodeJson)),
                       ("edges", Json.arr (nr.map edgeJson))])]

/-- Modelled from the spec: after one client's text submission, merge the
extraction result; if the delta is non-empty, serialize it once as an
`update` message and send that string to every live connection. -/
def broadcastUpdate (conns : List Nat) (g : ServerGraph)
    (ents : List Entity) (rels : List Relation) : ServerGraph × List (Nat × String) :=
  if ((applyText g ents rels).2.1.isEmpty && (applyText g ents rels).2.2.isEmpty) then
    ((applyText g ents rels).1, [])
  else
    ((applyText g ents rels).1,
      conns.map (fun c =>
        (c, jsonStringify (updateMsg (applyText g ents rels).2.1 (applyText g ents rels).2.2))))

/-! ## Remaining claim theorems -/

/-- C5: empty or whitespace-only text is a no-op — when the trimmed input is
empty, `handleSubmit` sends no frame and leaves the component state
unchanged, so the server (and hence the shared graph) sees nothing. -/
theorem blank_text_noop (st : AppState) (h : jsTrim st.inputText = "") :
    handleSubmit st = (none, st) ∧
    ∀ (extract : String → List Entity × List Relation) (g : ServerGraph),
      serverDeliver g extract (handleSubmit st).1 = g := by
  have h1 : handleSubmit st = (none, st) := by
    unfold handleSubmit
    rw [if_neg]
    intro hcontra
    exact hcontra.1 h
  refine ⟨h1, fun extract g => ?_⟩
  rw [h1]
  rfl

theorem blank_text_noop_witness :
    jsTrim "   " = "" ∧ handleSubmit ⟨"   ", true⟩ = (none, ⟨"   ", true⟩) :=
  ⟨by decide, (blank_text_noop ⟨"   ", true⟩ (by decide)).1⟩

/-- C6: every frame the client emits is exactly one of the two specified
shapes — `{"type":"text","text":s}` with `s` the submitted input string, or
`{"type":"clear"}`. -/
theorem client_messages_shape (st : AppState) (ev : UIEvent) (j : Json)
    (h : clientEmit st ev = some j) :
    j = textMsg st.inputText ∨ j = clearMsg := by
  cases ev with
  | submit =>
      unfold clientEmit handleSubmit at h
      by_cases hc : jsTrim st.inputText ≠ "" ∧ st.wsOpen = true
      · rw [if_pos hc] at h
        exact Or.inl (Option.some.inj h).symm
      · rw [if_neg hc] at h
        exact Option.noConfusion h
  | clear =>
      unfold clientEmit handleClear at h
      by_cases hc : st.wsOpen = true
      · rw [if_pos hc] at h
        exact Or.inr (Option.some.inj h).symm
      · rw [if_neg hc] at h
        exact Option.noConfusion h

theorem client_messages_shape_witness :
    clearMsg = textMsg "" ∨ clearMsg = clearMsg :=
  client_messages_shape ⟨"", true⟩ UIEvent.clear clearMsg rfl

/-- C7: broadcast uniformity — when a text submission produces a non-empty
delta, every currently-connected client is sent the one serialized `update`
payload, byte-identical across clients. -/
theorem broadcast_uniform (conns : List Nat) (g : ServerGraph)
    (ents : List Entity) (rels : List Relation)
    (h : ((applyText g ents rels).2.1.isEmpty && (applyText g ents rels).2.2.isEmpty) = false) :
    ∃ payload : String,
      (broadcastUpdate conns g ents rels).2 = conns.map (fun c => (c, payload)) := by
  refine ⟨jsonStringify (updateMsg (applyText g ents rels).2.1 (applyText g ents rels).2.2), ?_⟩
  unfold broadcastUpdate
  rw [if_neg]
  simp [h]

theorem broadcast_uniform_witness :
    ((applyText ServerGraph.empty [⟨"a", "A", "PERSON"⟩] []).2.1.isEmpty &&
      (applyText ServerGraph.empty [⟨"a", "A", "PERSON"⟩] []).2.2.isEmpty) = false ∧
    ∃ payload : String,
      (broadcastUpdate [0, 1, 2] ServerGraph.empty [⟨"a", "A", "PERSON"⟩] []).2
        = [0, 1, 2].map (fun c => (c, payload)) :=
  ⟨by decide, broadcast_uniform [0, 1, 2] ServerGraph.empty [⟨"a", "A", "PERSON"⟩] [] (by decide)⟩

/-- C8: a malformed client frame — not valid JSON, or not one of the two
specified shapes — is ignored by the (total, hence non-crashing) server frame
handler, and the shared graph is unchanged. -/
theorem malformed_frame_ignored (g : ServerGraph)
    (extract : String → List Entity × List Relation) (frame : String)
    (h : malformedFrame frame = true) :
    serverOnFrame g extract frame = (g, ServerAction.ignored) := by
  unfold malformedFrame at h
  unfold serverOnFrame
  cases hc : classifyFrame frame with
  | none => rfl
  | some cmd =>
      rw [hc] at h
      simp [Option.isNone] at h

theorem malformed_frame_ignored_witness :
    malformedFrame "oops" = true ∧
    serverOnFrame ServerGraph.empty (fun _ => ([], [])) "oops"
      = (ServerGraph.empty, ServerAction.ignored) :=
  ⟨by decide, malformed_frame_ignored ServerGraph.empty (fun _ => ([], [])) "oops" (by decide)⟩

/-- C9: frame property of the client message handler — a well-formed JSON
message whose `type` is none of `initial`, `update`, `clear` leaves the
client graph's elements completely unchanged. -/
theorem unknown_type_frame_unchanged (j : Json) (g : GraphState)
    (h1 : getType j ≠ some "initial") (h2 : getType j ≠ some "update")
    (h3 : getType j ≠ some "clear") :
    (clientStep j g).1 = g := by
  unfold clientStep
  split
  · rfl
  · split
    · rename_i t heq
      have hor : ¬(t = "initial" ∨ t = "update") := by
        intro hor
        rcases hor with he | he
        · subst he; exact h1 heq
        · subst he; exact h2 heq
      rw [if_neg hor]
      have ht3 : ¬t = "clear" := by
        intro he
        subst he
        exact h3 heq
      rw [if_neg ht3]
    · rfl

theorem unknown_type_frame_unchanged_witness :
    (clientStep (Json.obj [("type", Json.str "ping")]) [Element.node ⟨"x", "X", "OTHER"⟩]).1
      = [Element.node ⟨"x", "X", "OTHER"⟩] :=
  unknown_type_frame_unchanged (Json.obj [("type", Json.str "ping")])
    [Element.node ⟨"x", "X", "OTHER"⟩] (by decide) (by decide) (by decide)

/-- C10: the client message handler calls `JSON.parse` on every frame with no
error guard, so a non-JSON frame (here `"not json"`) makes the handler throw
a SyntaxError instead of being ignored. -/
theorem unguarded_parse_throws :
    parseJson "not json" = none ∧
    ∀ g : GraphState, (clientOnMessage "not json" g).2 = some "SyntaxError" :=
  ⟨rfl, fun _ => rfl⟩
